import Mathlib

/-!
Verification development for the speckit-vibe orchestration core.

The definitions below are shallow embeddings of the Python sources in
`skills/speckit-vibe/scripts/`: the persisted workflow-state commands of
`state-tracker.py`, the in-memory `WorkflowState` of `vibe_workflow.py`,
the task parser and scheduler of `vibe_task.py`, and the subprocess layer
of `adapters/base.py` together with the Copilot adapter of
`adapters/copilot.py`.  File-system and subprocess effects are passed in
explicitly (file contents, spawn outcomes, per-task outcomes), timestamps
are abstract strings, and the theorems at the end settle the behavioural
claims about these components.
-/

namespace SpecKit

/-- Fixed ordered pipeline, WORKFLOW_STAGES in state-tracker.py and
vibe_workflow.py. -/
def WORKFLOW_STAGES : List String :=
  ["specify", "clarify", "plan", "tasks", "checklist", "analyze", "implement"]

/-- Persisted workflow state document (state.json) as manipulated by
state-tracker.py.  Timestamps are abstract strings; the task status map is
kept as an association list of task id to status string. -/
structure StateDict where
  workflow_id : String
  started_at : String
  updated_at : String
  current_stage : Option String
  completed_stages : List String
  failed_stage : Option String
  failed_at : Option String
  spec_dir : Option String
  requirement : Option String
  task_status : List (String × String)
  deriving Repr, DecidableEq

/-- Model of create_initial_state in state-tracker.py; the wall-clock value
used for the workflow id and the timestamps is the abstract string now. -/
def create_initial_state (now : String) : StateDict :=
  { workflow_id := now
    started_at := now
    updated_at := now
    current_stage := none
    completed_stages := []
    failed_stage := none
    failed_at := none
    spec_dir := none
    requirement := none
    task_status := [] }

/-- Model of get_next_stage in state-tracker.py: the first pipeline stage
not contained in the completed list. -/
def get_next_stage (completed : List String) : Option String :=
  WORKFLOW_STAGES.find? (fun stage => !(completed.contains stage))

/-- Result of a state-tracker transition command: the exit code taken by
sys.exit, if any, paired with the state persisted on disk afterwards (the
input state when the command exits before saving). -/
abbrev CmdResult := Option Nat × StateDict

/-- Model of cmd_checkpoint in state-tracker.py.  An unknown stage name is
reported and the process exits with code 1 before any save; otherwise the
stage is appended to completed_stages if absent, a matching current stage
and a matching failed stage are cleared, and the state is saved (save_state
also refreshes updated_at). -/
def cmd_checkpoint (stage : String) (st : StateDict) (now : String) : CmdResult :=
  if WORKFLOW_STAGES.contains stage then
    let completed :=
      if st.completed_stages.contains stage then st.completed_stages
      else st.completed_stages ++ [stage]
    let current := if st.current_stage = some stage then none else st.current_stage
    let failed := if st.failed_stage = some stage then none else st.failed_stage
    let failedAt := if st.failed_stage = some stage then none else st.failed_at
    (none, { st with completed_stages := completed, current_stage := current,
                     failed_stage := failed, failed_at := failedAt, updated_at := now })
  else
    (some 1, st)

/-- Model of cmd_start in state-tracker.py.  An unknown stage name exits
with code 1 before any save; otherwise current_stage is set and the failed
marker is cleared only when it names the very stage being started. -/
def cmd_start (stage : String) (st : StateDict) (now : String) : CmdResult :=
  if WORKFLOW_STAGES.contains stage then
    let failed := if st.failed_stage = some stage then none else st.failed_stage
    let failedAt := if st.failed_stage = some stage then none else st.failed_at
    (none, { st with current_stage := some stage, failed_stage := failed,
                     failed_at := failedAt, updated_at := now })
  else
    (some 1, st)

/-- Model of cmd_fail in state-tracker.py.  An unknown stage name exits
with code 1 before any save; otherwise failed_stage and failed_at are set
and current_stage is cleared. -/
def cmd_fail (stage : String) (st : StateDict) (now : String) : CmdResult :=
  if WORKFLOW_STAGES.contains stage then
    (none, { st with failed_stage := some stage, failed_at := some now,
                     current_stage := none, updated_at := now })
  else
    (some 1, st)

/-- Model of cmd_reset in state-tracker.py on its effective path (forced,
or interactively confirmed): all progress is discarded and a fresh initial
state is written. -/
def cmd_reset (now : String) : StateDict :=
  create_initial_state now

/-- Model of cmd_resume in state-tracker.py: the line it prints.  A failed
stage takes priority; otherwise the first incomplete pipeline stage; the
terminal signal is the literal COMPLETE. -/
def cmd_resume (st : StateDict) : String :=
  match st.failed_stage with
  | some f => f
  | none =>
      match get_next_stage st.completed_stages with
      | some s => s
      | none => "COMPLETE"

/-- In-memory workflow state of vibe_workflow.py (dataclass WorkflowState). -/
structure WorkflowState where
  workflow_id : String
  started_at : String
  updated_at : Option String := none
  current_stage : Option String := none
  completed_stages : List String := []
  failed_stage : Option String := none
  failed_at : Option String := none
  spec_dir : Option String := none
  requirement : Option String := none
  deriving Repr, DecidableEq

/-- Model of WorkflowState.get_next_stage in vibe_workflow.py: the first
pipeline stage not in completed_stages.  The failed_stage field is not
consulted. -/
def WorkflowState.get_next_stage (ws : WorkflowState) : Option String :=
  WORKFLOW_STAGES.find? (fun stage => !(ws.completed_stages.contains stage))

/-- Model of WorkflowState.mark_started in vibe_workflow.py: sets
current_stage and saves; no other field changes. -/
def WorkflowState.mark_started (ws : WorkflowState) (stage : String) : WorkflowState :=
  { ws with current_stage := some stage }

/-- Outcome of json.load on the bytes of an existing state file: either a
decode failure or a decoded state document. -/
inductive JsonOutcome where
  | decodeError
  | value (st : StateDict)
  deriving Repr, DecidableEq

/-- Condition of the persisted state file on disk as seen by load_state:
missing, present but unreadable (open or read raises an OSError), or
present with readable content. -/
inductive FileState where
  | absent
  | unreadable
  | content (j : JsonOutcome)
  deriving Repr, DecidableEq

/-- Python exception escaping load_state. -/
inductive LoadError where
  | ioError
  deriving Repr, DecidableEq

/-- Model of load_state in state-tracker.py.  A missing file and a JSON
decode failure both yield a fresh initial state; only json.JSONDecodeError
is caught, so an I/O error reading an existing file propagates. -/
def load_state (fs : FileState) (now : String) : Except LoadError StateDict :=
  match fs with
  | FileState.absent => Except.ok (create_initial_state now)
  | FileState.unreadable => Except.error LoadError.ioError
  | FileState.content JsonOutcome.decodeError => Except.ok (create_initial_state now)
  | FileState.content (JsonOutcome.value st) => Except.ok st

/-- Mutual exclusion of the in-progress and failed markers of the persisted
state. -/
def mutualExcl (st : StateDict) : Prop :=
  st.current_stage = none ∨ st.failed_stage = none

/-- ASCII whitespace recognised by Python str.strip and the regex class \s
on the (ASCII) inputs at hand. -/
def isSpace (c : Char) : Bool :=
  c = ' ' || c = '\t' || c = '\n' || c = '\r' || c = '\x0b' || c = '\x0c'

/-- Strips whitespace at both ends, Python str.strip(). -/
def stripChars (l : List Char) : List Char :=
  ((l.dropWhile isSpace).reverse.dropWhile isSpace).reverse

/-- Backquote character, written by code point to keep it out of the
surrounding text. -/
def backquote : Char := Char.ofNat 96

/-- Characters admitted inside the checkbox by the regex class [ xX]. -/
def statusChar (c : Char) : Bool :=
  c = ' ' || c = 'x' || c = 'X'

/-- Value of a digit run, as int() of the matched group. -/
def digitsToNat (ds : List Char) : Nat :=
  ds.foldl (fun n c => n * 10 + (c.toNat - 48)) 0

/-- Continuation of the task-line regex after the closing bracket of the
checkbox: one or more whitespace characters, the letter T with at least one
digit, then optional whitespace before the free text captured by the final
group. -/
def afterStatus (status : Option Char) (rest : List Char) :
    Option (Option Char × List Char × List Char) :=
  match rest with
  | [] => none
  | c :: _ =>
      if isSpace c then
        match rest.dropWhile isSpace with
        | 'T' :: ds =>
            let digits := ds.takeWhile Char.isDigit
            if digits.isEmpty then none
            else
              some (status, 'T' :: digits,
                    (ds.dropWhile Char.isDigit).dropWhile isSpace)
        | _ => none
      else none

/-- Match of the anchored task-line pattern of Task.parse_line on a
stripped line: a dash, one space, the checkbox with an optional status
character, then the id and remaining text.  Returns the status character,
the task id characters, and the free text. -/
def parseTaskCore (l : List Char) : Option (Option Char × List Char × List Char) :=
  match l with
  | '-' :: ' ' :: '[' :: rest =>
      (match rest with
       | ']' :: rest2 => afterStatus none rest2
       | c :: ']' :: rest2 =>
           if statusChar c then afterStatus (some c) rest2 else none
       | _ => none)
  | _ => none

/-- Substring test, the Python in operator on strings. -/
def containsSub (sub : List Char) : List Char → Bool
  | [] => sub.isPrefixOf ([] : List Char)
  | c :: t => sub.isPrefixOf (c :: t) || containsSub sub t

/-- Scan of the replacement loop, structurally recursive on a fuel bound
that dominates the length of the remaining list (skipping past a matched
occurrence shortens the list by at least the one character consumed, so the
fuel never runs out when primed with the length). -/
def replaceSubAux (sub : List Char) : Nat → List Char → List Char
  | 0, _ => []
  | fuel + 1, l =>
      match l with
      | [] => []
      | c :: t =>
          if 0 < sub.length ∧ sub.isPrefixOf (c :: t) then
            replaceSubAux sub fuel (t.drop (sub.length - 1))
          else
            c :: replaceSubAux sub fuel t

/-- Removal of every non-overlapping occurrence of a non-empty pattern,
scanning left to right: str.replace with the empty replacement. -/
def replaceSub (sub : List Char) (l : List Char) : List Char :=
  replaceSubAux sub l.length l

/-- Attempt to match the user-story pattern [US digits] at the head of the
list; on success returns the matched text and the digit run. -/
def matchUSAt (l : List Char) : Option (List Char × List Char) :=
  match l with
  | '[' :: 'U' :: 'S' :: rest =>
      let ds := rest.takeWhile Char.isDigit
      if ds.isEmpty then none
      else
        match rest.dropWhile Char.isDigit with
        | ']' :: _ => some ('[' :: 'U' :: 'S' :: (ds ++ [']']), ds)
        | _ => none
  | _ => none

/-- Leftmost match of the user-story pattern, re.search of the [US digits]
regex. -/
def searchUS : List Char → Option (List Char × List Char)
  | [] => none
  | c :: t =>
      match matchUSAt (c :: t) with
      | some r => some r
      | none => searchUS t

/-- Leftmost match of a back-quoted non-empty run, re.search of the
back-quoted path regex; returns the characters between the quotes. -/
def searchBackquote : List Char → Option (List Char)
  | [] => none
  | c :: t =>
      if c = backquote then
        let body := t.takeWhile (fun d => !(d = backquote))
        if !body.isEmpty && (t.drop body.length).head? = some backquote then
          some body
        else searchBackquote t
      else searchBackquote t

/-- Task record of vibe_task.py (dataclass Task). -/
structure Task where
  task_id : String
  description : String
  raw_line : String
  is_completed : Bool := false
  is_parallel : Bool := false
  user_story : Option String := none
  phase : Option Nat := none
  file_path : Option String := none
  deriving Repr, DecidableEq

/-- Pattern [P] as characters. -/
def parallelToken : List Char := ['[', 'P', ']']

/-- Model of Task.parse_line in vibe_task.py: strip the line, match the
task pattern, derive the completed flag from the status character, test and
remove the parallel token, extract and remove the first user-story token,
and extract (without removing) the first back-quoted path; the remaining
stripped text is the description. -/
def Task.parse_line (line : String) (phase : Option Nat) : Option Task :=
  match parseTaskCore (stripChars line.toList) with
  | none => none
  | some (status, taskId, rest) =>
      let is_completed := status = some 'x' || status = some 'X'
      let is_parallel := containsSub parallelToken rest
      let rest1 := stripChars (replaceSub parallelToken rest)
      let usFound := searchUS rest1
      let user_story := usFound.map (fun r => String.mk ('U' :: 'S' :: r.2))
      let rest2 :=
        match usFound with
        | some r => stripChars (replaceSub r.1 rest1)
        | none => rest1
      let file_path := (searchBackquote rest2).map String.mk
      some { task_id := String.mk taskId
             description := String.mk (stripChars rest2)
             raw_line := line
             is_completed := is_completed
             is_parallel := is_parallel
             user_story := user_story
             phase := phase
             file_path := file_path }

/-- Model of the phase-header pattern of parse_tasks_file: two hash marks
at the start of the raw line, optional whitespace, the word Phase, optional
whitespace, then at least one digit (trailing text is ignored). -/
def parsePhaseHeader (line : String) : Option Nat :=
  match line.toList with
  | '#' :: '#' :: rest =>
      let r1 := rest.dropWhile isSpace
      if ['P', 'h', 'a', 's', 'e'].isPrefixOf r1 then
        let r2 := (r1.drop 5).dropWhile isSpace
        let ds := r2.takeWhile Char.isDigit
        if ds.isEmpty then none else some (digitsToNat ds)
      else none
  | _ => none

/-- Insertion into the id-keyed task dictionary: a repeated id overwrites
the earlier record in place (Python dict assignment keeps the original
position), a new id is appended. -/
def upsertTask (tasks : List Task) (t : Task) : List Task :=
  if tasks.any (fun u => u.task_id = t.task_id) then
    tasks.map (fun u => if u.task_id = t.task_id then t else u)
  else tasks ++ [t]

/-- Line loop of parse_tasks_file: a phase header updates the active phase,
a task line is inserted under the active phase, any other line is
ignored. -/
def parseTasksGo : List String → Option Nat → List Task → List Task
  | [], _, acc => acc
  | line :: rest, cur, acc =>
      match parsePhaseHeader line with
      | some p => parseTasksGo rest (some p) acc
      | none =>
          match Task.parse_line line cur with
          | some t => parseTasksGo rest cur (upsertTask acc t)
          | none => parseTasksGo rest cur acc

/-- Model of parse_tasks_file in vibe_task.py over the lines of the tasks
document, yielding the insertion-ordered task dictionary as a list. -/
def parse_tasks_file (lines : List String) : List Task :=
  parseTasksGo lines none []

/-- Outcome of running the body of an incomplete task in execute_task:
the adapter reported exit code zero, a non-zero exit code, or a Python
exception was raised somewhere in the body. -/
inductive TaskOutcome where
  | success
  | failure
  | raised
  deriving Repr, DecidableEq

/-- Observable side effects of the task executor: task ids for which a
command line was built, for which the agent process was executed, and for
which a per-task status record was written. -/
structure Effects where
  built : List String
  procs : List String
  written : List String
  deriving Repr, DecidableEq

instance : Append Effects :=
  ⟨fun a b => ⟨a.built ++ b.built, a.procs ++ b.procs, a.written ++ b.written⟩⟩

/-- Empty effect record. -/
def noEffects : Effects := ⟨[], [], []⟩

/-- Environment of a TaskExecutor: the parsed task list in document order,
the outcome of running each incomplete task's body (log preparation,
adapter execution, status write), and the dry-run flag. -/
structure ExecEnv where
  tasks : List Task
  runTask : String → TaskOutcome
  dryRun : Bool := false

/-- Model of TaskExecutor.execute_task in vibe_task.py.  An unknown id is
a failure with no effect; a task already checked complete in the source
document returns success before any command is built, any process is run,
or any status record is written; a dry run builds the command and succeeds
without executing; otherwise the body runs: on a normal adapter result the
status record is written and success is exit code zero, while a raised
exception propagates (modelled as interrupting the body before the status
record is durably written). -/
def execute_task (env : ExecEnv) (id : String) : Except Unit Bool × Effects :=
  match env.tasks.find? (fun t => t.task_id == id) with
  | none => (Except.ok false, noEffects)
  | some t =>
      if t.is_completed then (Except.ok true, noEffects)
      else if env.dryRun then (Except.ok true, ⟨[id], [], []⟩)
      else
        match env.runTask id with
        | TaskOutcome.success => (Except.ok true, ⟨[id], [id], [id]⟩)
        | TaskOutcome.failure => (Except.ok false, ⟨[id], [id], [id]⟩)
        | TaskOutcome.raised => (Except.error (), ⟨[id], [id], []⟩)

/-- Sequential loop of execute_phase: tasks run one after another in list
order, the loop stops at the first task whose result is failure (returning
failure) and a raised exception propagates. -/
def runSequential (env : ExecEnv) : List Task → Effects → Except Unit Bool × Effects
  | [], acc => (Except.ok true, acc)
  | t :: rest, acc =>
      match execute_task env t.task_id with
      | (Except.ok true, eff) => runSequential env rest (acc ++ eff)
      | (Except.ok false, eff) => (Except.ok false, acc ++ eff)
      | (Except.error e, eff) => (Except.error e, acc ++ eff)

/-- Model of TaskExecutor.get_phase_tasks: the tasks of the phase in
document order. -/
def phase_tasks (env : ExecEnv) (phase : Nat) : List Task :=
  env.tasks.filter (fun t => t.phase == some phase)

/-- Incomplete non-parallel tasks of a phase, in document order. -/
def sequential_tasks (env : ExecEnv) (phase : Nat) : List Task :=
  (phase_tasks env phase).filter (fun t => !t.is_parallel && !t.is_completed)

/-- Incomplete parallel-marked tasks of a phase, in document order. -/
def parallel_tasks (env : ExecEnv) (phase : Nat) : List Task :=
  (phase_tasks env phase).filter (fun t => t.is_parallel && !t.is_completed)

/-- Concatenation of the effects of a list of pool workers. -/
def combineEffects (l : List Effects) : Effects :=
  ⟨(l.map Effects.built).flatten, (l.map Effects.procs).flatten,
   (l.map Effects.written).flatten⟩

/-- Failure test applied to each future's result in the parallel join loop:
a result counts as failed when it is not a successful return, so both a
returned failure and a raised exception set the flag. -/
def isFailure (r : Except Unit Bool) : Bool :=
  match r with
  | Except.ok true => false
  | _ => true

/-- Model of TaskExecutor.execute_phase in vibe_task.py.  An empty phase
succeeds.  Otherwise the incomplete tasks are partitioned; the sequential
ones run first in document order with the fail-fast loop; only if they all
succeed is every parallel task submitted to the pool, each running to
completion regardless of its siblings, and the phase fails exactly when
some parallel task failed or raised. -/
def execute_phase (env : ExecEnv) (phase : Nat) : Except Unit Bool × Effects :=
  let tasks := phase_tasks env phase
  if tasks.isEmpty then (Except.ok true, noEffects)
  else
    match runSequential env (sequential_tasks env phase) noEffects with
    | (Except.ok true, eff) =>
        let par := parallel_tasks env phase
        if par.isEmpty then (Except.ok true, eff)
        else
          let results := par.map (fun t => execute_task env t.task_id)
          let failed := results.any (fun r => isFailure r.1)
          (Except.ok (!failed), eff ++ combineEffects (results.map Prod.snd))
    | r => r

/-- Agent configuration of adapters/base.py (dataclass AgentConfig),
without the open extension map. -/
structure AgentConfig where
  model : String
  timeout_minutes : Nat := 30
  retry_count : Nat := 2
  log_level : String := "INFO"
  deriving Repr, DecidableEq

/-- Execution result of adapters/base.py, without the duration and log-file
map (wall-clock values are outside the model). -/
structure ExecutionResult where
  exit_code : Int
  stdout : String
  stderr : String
  command : String
  deriving Repr, DecidableEq

/-- Outcome of subprocess.run inside AgentAdapter.execute: the child
completed with a return code, the timeout expired, the executable was
missing (FileNotFoundError), or some other exception was raised while
spawning. -/
inductive SpawnOutcome where
  | completed (returncode : Int) (stdout stderr : String)
  | timeoutExpired
  | fileNotFound
  | otherError (msg : String)
  deriving Repr, DecidableEq

/-- Identity of one adapter as used by the runner: its executable name and
its installation guidance. -/
structure AdapterInfo where
  executable : String
  install_instructions : String
  deriving Repr, DecidableEq

/-- Model of AgentAdapter.execute in adapters/base.py, with the command
already built and the subprocess layer passed in as spawn (taking the
command and the timeout in seconds).  The dry-run branch never spawns;
otherwise the spawn outcome is mapped to the result exactly as the three
except clauses do. -/
def adapter_execute (ad : AdapterInfo) (spawn : List String → Nat → SpawnOutcome)
    (cmd : List String) (config : AgentConfig) (dryRun : Bool) : ExecutionResult :=
  let cmdStr := String.intercalate " " cmd
  if dryRun then
    { exit_code := 0, stdout := "[DRY-RUN] Would execute:\n" ++ cmdStr,
      stderr := "", command := cmdStr }
  else
    match spawn cmd (config.timeout_minutes * 60) with
    | SpawnOutcome.completed rc o e =>
        { exit_code := rc, stdout := o, stderr := e, command := cmdStr }
    | SpawnOutcome.timeoutExpired =>
        { exit_code := 124, stdout := "",
          stderr := "Execution timed out after " ++ toString config.timeout_minutes
                      ++ " minutes",
          command := cmdStr }
    | SpawnOutcome.fileNotFound =>
        { exit_code := 127, stdout := "",
          stderr := "Agent executable not found: " ++ ad.executable ++ "\n"
                      ++ ad.install_instructions,
          command := cmdStr }
    | SpawnOutcome.otherError m =>
        { exit_code := 1, stdout := "", stderr := "Execution error: " ++ m,
          command := cmdStr }

/-- Base instruction lines of CopilotAdapter.build_autonomous_suffix in
adapters/copilot.py. -/
def base_suffix_parts : List String :=
  ["-- [AUTONOMOUS VIBE MODE] CRITICAL:",
   "1) DO NOT ask user questions - decide yourself.",
   "2) DO NOT skip steps or request confirmation.",
   "3) Make reasonable assumptions and document them.",
   "4) Complete ALL work without asking for approval."]

/-- Stage-specific hint dictionary of build_autonomous_suffix. -/
def stage_hints (stage : String) : Option String :=
  if stage = "clarify" then
    some ("For CLARIFY: Identify ambiguities, resolve them yourself with "
            ++ "documented assumptions, update spec.md with clarifications.")
  else if stage = "plan" then
    some ("For PLAN: Create comprehensive technical plan covering architecture, "
            ++ "implementation approach, and risk mitigation.")
  else if stage = "tasks" then
    some ("For TASKS: Generate all tasks with proper dependencies, phases, "
            ++ "and parallel execution markers [P] where safe.")
  else if stage = "checklist" then
    some ("For CHECKLIST: Generate all validation items without asking priorities. "
            ++ "Include unit tests, integration tests, and edge cases.")
  else if stage = "analyze" then
    some ("For ANALYZE: Check consistency across all artifacts, identify gaps, "
            ++ "and update documents to ensure alignment.")
  else if stage = "implement" then
    some ("For IMPLEMENT: Execute ALL tasks in dependency order. "
            ++ "Respect [P] markers for parallel execution. "
            ++ "Mark tasks complete [X] as you finish them.")
  else none

/-- Model of CopilotAdapter.build_autonomous_suffix: the base instruction
lines, extended with the hint for the given stage when the dictionary has
one, joined with single spaces. -/
def build_autonomous_suffix (stage : String) : String :=
  String.intercalate " " (base_suffix_parts ++ (stage_hints stage).toList)

/-- Join of the base instruction lines alone. -/
def base_suffix_text : String :=
  String.intercalate " " base_suffix_parts

/-- Concrete incomplete sequential task, first of the three-task phase. -/
def taskA : Task :=
  { task_id := "T001", description := "first", raw_line := "- [ ] T001 first",
    is_completed := false, is_parallel := false, user_story := none,
    phase := some 1, file_path := none }

/-- Concrete incomplete sequential task, second of the three-task phase. -/
def taskB : Task :=
  { task_id := "T002", description := "second", raw_line := "- [ ] T002 second",
    is_completed := false, is_parallel := false, user_story := none,
    phase := some 1, file_path := none }

/-- Concrete incomplete sequential task, third of the three-task phase. -/
def taskC : Task :=
  { task_id := "T003", description := "third", raw_line := "- [ ] T003 third",
    is_completed := false, is_parallel := false, user_story := none,
    phase := some 1, file_path := none }

/-- Concrete incomplete parallel-marked task of the same phase. -/
def taskD : Task :=
  { task_id := "T004", description := "par one", raw_line := "- [ ] T004 [P] par one",
    is_completed := false, is_parallel := true, user_story := none,
    phase := some 1, file_path := none }

/-- Concrete incomplete parallel-marked task of the same phase. -/
def taskE : Task :=
  { task_id := "T005", description := "par two", raw_line := "- [ ] T005 [P] par two",
    is_completed := false, is_parallel := true, user_story := none,
    phase := some 1, file_path := none }

/-- Concrete task already checked complete in the source document. -/
def taskDone : Task :=
  { task_id := "T009", description := "done", raw_line := "- [x] T009 done",
    is_completed := true, is_parallel := false, user_story := none,
    phase := some 1, file_path := none }

/-- Executor environment with three sequential tasks, the second of which
fails, plus one parallel task. -/
def envFail2 : ExecEnv :=
  { tasks := [taskA, taskB, taskC, taskD]
    runTask := fun id => if id == "T002" then TaskOutcome.failure else TaskOutcome.success
    dryRun := false }

/-- Executor environment with one succeeding sequential task and two
parallel tasks of which one raises. -/
def envParRaise : ExecEnv :=
  { tasks := [taskA, taskD, taskE]
    runTask := fun id => if id == "T005" then TaskOutcome.raised else TaskOutcome.success
    dryRun := false }

/-- Executor environment holding only a completed task, with a body oracle
that would fail if it were ever consulted. -/
def envDone : ExecEnv :=
  { tasks := [taskDone]
    runTask := fun _ => TaskOutcome.failure
    dryRun := false }

/-- Persisted state with one completed stage and a later failed stage. -/
def stPlanFailed : StateDict :=
  { workflow_id := "w", started_at := "t0", updated_at := "t1",
    current_stage := none, completed_stages := ["specify"],
    failed_stage := some "plan", failed_at := some "t1",
    spec_dir := none, requirement := none, task_status := [] }

/-- In-memory workflow state with one completed stage and a later failed
stage. -/
def wsPlanFailed : WorkflowState :=
  { workflow_id := "w", started_at := "t0", updated_at := none,
    current_stage := none, completed_stages := ["specify"],
    failed_stage := some "plan", failed_at := some "t1",
    spec_dir := none, requirement := none }

/-- Copilot adapter identity for the runner model. -/
def copilotInfo : AdapterInfo :=
  { executable := "copilot"
    install_instructions :=
      "GitHub Copilot CLI is not installed or not in PATH." }

/-- Componentwise form of the append of effect records. -/
theorem eff_append_mk (b1 p1 w1 b2 p2 w2 : List String) :
    (⟨b1, p1, w1⟩ : Effects) ++ (⟨b2, p2, w2⟩ : Effects)
      = ⟨b1 ++ b2, p1 ++ p2, w1 ++ w2⟩ := rfl

/-- Appending the empty effect record changes nothing. -/
theorem eff_append_empty (a : Effects) : a ++ noEffects = a := by
  cases a with
  | mk b p w => simp [noEffects, eff_append_mk]

/-- Prepending the empty effect record changes nothing. -/
theorem eff_empty_append (a : Effects) : noEffects ++ a = a := by
  cases a with
  | mk b p w => simp [noEffects, eff_append_mk]

/-- Associativity of the append of effect records. -/
theorem eff_append_assoc (a b c : Effects) : a ++ b ++ c = a ++ (b ++ c) := by
  cases a with
  | mk b1 p1 w1 =>
      cases b with
      | mk b2 p2 w2 =>
          cases c with
          | mk b3 p3 w3 => simp [eff_append_mk]

/-- C10: for a stage argument outside the fixed seven-stage pipeline, each
of the state-tracker transition commands checkpoint, start and fail
reports exit code 1 before any save, leaving the persisted workflow state
unchanged. -/
theorem invalid_stage_commands_no_save (stage : String) (st : StateDict) (now : String)
    (h : WORKFLOW_STAGES.contains stage = false) :
    cmd_checkpoint stage st now = (some 1, st) ∧
    cmd_start stage st now = (some 1, st) ∧
    cmd_fail stage st now = (some 1, st) := by
  have h' : stage ∉ WORKFLOW_STAGES := by simpa using h
  refine ⟨?_, ?_, ?_⟩ <;> simp [cmd_checkpoint, cmd_start, cmd_fail, h']

/-- Witness for C10 at the concrete stage name bogus. -/
theorem invalid_stage_commands_no_save_witness :
    WORKFLOW_STAGES.contains "bogus" = false ∧
    cmd_checkpoint "bogus" (create_initial_state "t0") "t1"
      = (some 1, create_initial_state "t0") :=
  ⟨by decide,
   (invalid_stage_commands_no_save "bogus" (create_initial_state "t0") "t1"
      (by decide)).1⟩

/-- C8 counterexample: an existing but unreadable state file makes
load_state raise (only json.JSONDecodeError is caught), so loading does
signal an error instead of synthesizing a fresh state. -/
theorem load_state_unreadable_signals_error :
    load_state FileState.unreadable "t0" = Except.error LoadError.ioError ∧
    ∀ st : StateDict, load_state FileState.unreadable "t0" ≠ Except.ok st := by
  refine ⟨rfl, ?_⟩
  intro st h
  simp [load_state] at h

/-- C8 amended: a missing state file and a JSON decode failure both yield a
fresh initial state (new id, no completed, current or failed stage, empty
task status), readable valid content is returned as is, and an I/O error on
an existing file propagates as an error. -/
theorem load_state_amended (now : String) (st : StateDict) :
    load_state FileState.absent now = Except.ok (create_initial_state now) ∧
    load_state (FileState.content JsonOutcome.decodeError) now
      = Except.ok (create_initial_state now) ∧
    load_state (FileState.content (JsonOutcome.value st)) now = Except.ok st ∧
    (create_initial_state now).completed_stages = [] ∧
    (create_initial_state now).current_stage = none ∧
    (create_initial_state now).failed_stage = none ∧
    (create_initial_state now).task_status = [] ∧
    load_state FileState.unreadable now = Except.error LoadError.ioError :=
  ⟨rfl, rfl, rfl, rfl, rfl, rfl, rfl, rfl⟩

set_option maxRecDepth 8192 in
/-- C5 counterexample: from the initial state, failing the plan stage and
then starting the clarify stage leaves both current_stage and failed_stage
set, so the mutual-exclusion invariant is not preserved by start on a state
whose failed stage differs from the started one. -/
theorem start_other_stage_sets_both_markers :
    ((cmd_fail "plan" (create_initial_state "t0") "t1").2).failed_stage = some "plan" ∧
    ((cmd_fail "plan" (create_initial_state "t0") "t1").2).current_stage = none ∧
    ((cmd_start "clarify" (cmd_fail "plan" (create_initial_state "t0") "t1").2 "t2").2).current_stage
      = some "clarify" ∧
    ((cmd_start "clarify" (cmd_fail "plan" (create_initial_state "t0") "t1").2 "t2").2).failed_stage
      = some "plan" ∧
    ¬ mutualExcl (cmd_start "clarify" (cmd_fail "plan" (create_initial_state "t0") "t1").2 "t2").2 := by
  refine ⟨by decide, by decide, by decide, by decide, ?_⟩
  intro h
  rcases h with h | h <;> revert h <;> decide

/-- C5 amended: checkpoint, fail and reset always preserve the mutual
exclusion of failed_stage and current_stage, and start preserves it
exactly in the cases where no failure is recorded or the recorded failure
is the stage being started; mark_started in vibe_workflow never touches
failed_stage. -/
theorem transitions_mutual_exclusion (st : StateDict) (ws : WorkflowState)
    (stage now : String) (hInv : mutualExcl st) :
    mutualExcl (cmd_checkpoint stage st now).2 ∧
    mutualExcl (cmd_fail stage st now).2 ∧
    mutualExcl (cmd_reset now) ∧
    ((st.failed_stage = none ∨ st.failed_stage = some stage) →
      mutualExcl (cmd_start stage st now).2) ∧
    (ws.mark_started stage).failed_stage = ws.failed_stage := by
  refine ⟨?_, ?_, ?_, ?_, rfl⟩
  · unfold cmd_checkpoint mutualExcl
    split
    · rcases hInv with h | h
      · left; simp [h]
      · right; simp [h]
    · exact hInv
  · unfold cmd_fail mutualExcl
    split
    · left; rfl
    · exact hInv
  · left; rfl
  · intro hd
    unfold cmd_start mutualExcl
    split
    · right
      rcases hd with h | h
      · simp [h]
      · simp [h]
    · exact hInv

/-- Witness for C5 amended at the plan stage on the initial state. -/
theorem transitions_mutual_exclusion_witness :
    mutualExcl (cmd_checkpoint "plan" (create_initial_state "t0") "t1").2 :=
  (transitions_mutual_exclusion (create_initial_state "t0") wsPlanFailed
      "plan" "t1" (Or.inl rfl)).1

/-- C9 counterexample: the stage specify is a pipeline stage, yet its
autonomous suffix is exactly the base instruction text — the hint
dictionary has no entry for it, so no stage-specific elaboration is
included. -/
theorem autonomous_suffix_specify_no_hint :
    "specify" ∈ WORKFLOW_STAGES ∧
    stage_hints "specify" = none ∧
    build_autonomous_suffix "specify" = base_suffix_text ∧
    ¬ ∃ hint : String,
        build_autonomous_suffix "specify" = base_suffix_text ++ " " ++ hint := by
  refine ⟨by decide, rfl, rfl, ?_⟩
  rintro ⟨hint, h⟩
  have h2 : base_suffix_text = base_suffix_text ++ " " ++ hint := h
  have hl := congrArg String.length h2
  simp only [String.length_append] at hl
  have h1 : (" " : String).length = 1 := rfl
  omega

set_option maxRecDepth 16384 in
/-- C9 amended: every pipeline stage's autonomous suffix starts with the
four base instructions; the six stages other than specify each add a
distinct stage-specific elaboration, while the suffix for specify is the
base text alone. -/
theorem autonomous_suffix_amended :
    (WORKFLOW_STAGES.all
        (fun s => base_suffix_text.toList.isPrefixOf (build_autonomous_suffix s).toList)) = true ∧
    build_autonomous_suffix "specify" = base_suffix_text ∧
    (["clarify", "plan", "tasks", "checklist", "analyze", "implement"].all
        (fun s => (stage_hints s).isSome
          && (build_autonomous_suffix s
                == base_suffix_text ++ " " ++ (stage_hints s).getD ""))) = true ∧
    (["clarify", "plan", "tasks", "checklist", "analyze", "implement"].map
        (fun s => (stage_hints s).getD "")).Nodup := by
  refine ⟨by decide, rfl, by decide, by decide⟩

set_option maxRecDepth 16384 in
/-- C3 counterexample: in the documented example the back-quoted file path
is extracted into the file field but never stripped from the remaining
text, so the stored description is not the claimed text without the path. -/
theorem parse_example_description_keeps_path :
    (parse_tasks_file ["## Phase 2", "- [ ] T005 [P] [US1] Do X `src/x.py`"]).map
        Task.description = ["Do X `src/x.py`"] ∧
    ("Do X `src/x.py`" : String) ≠ "Do X" := by
  refine ⟨by decide, by decide⟩

set_option maxRecDepth 16384 in
/-- C3 amended: parsing the phase header followed by the example task line
yields phase 2, the parallel flag, story US1 and file src/x.py, with the
parallel and story tokens stripped from the description while the
back-quoted path remains in it. -/
theorem parse_example_amended :
    parse_tasks_file ["## Phase 2", "- [ ] T005 [P] [US1] Do X `src/x.py`"] =
      [{ task_id := "T005",
         description := "Do X `src/x.py`",
         raw_line := "- [ ] T005 [P] [US1] Do X `src/x.py`",
         is_completed := false,
         is_parallel := true,
         user_story := some "US1",
         phase := some 2,
         file_path := some "src/x.py" }] := by decide

/-- C7: in a non-dry-run execution the failure cause determines the exit
code of the result: an expired timeout at the configured minute limit times
sixty seconds maps to exit code 124 with a stderr message naming the
configured minutes, a missing executable maps to exit code 127 with a
stderr ending in the adapter's install instructions, and any other spawn
failure maps to exit code 1 with generic error text. -/
theorem adapter_execute_error_mapping (ad : AdapterInfo)
    (spawn : List String → Nat → SpawnOutcome) (cmd : List String)
    (config : AgentConfig) :
    (spawn cmd (config.timeout_minutes * 60) = SpawnOutcome.timeoutExpired →
      (adapter_execute ad spawn cmd config false).exit_code = 124 ∧
      (adapter_execute ad spawn cmd config false).stderr =
        "Execution timed out after " ++ toString config.timeout_minutes ++ " minutes") ∧
    (spawn cmd (config.timeout_minutes * 60) = SpawnOutcome.fileNotFound →
      (adapter_execute ad spawn cmd config false).exit_code = 127 ∧
      (adapter_execute ad spawn cmd config false).stderr =
        ("Agent executable not found: " ++ ad.executable ++ "\n")
          ++ ad.install_instructions) ∧
    (∀ msg, spawn cmd (config.timeout_minutes * 60) = SpawnOutcome.otherError msg →
      (adapter_execute ad spawn cmd config false).exit_code = 1 ∧
      (adapter_execute ad spawn cmd config false).stderr = "Execution error: " ++ msg) := by
  refine ⟨?_, ?_, ?_⟩
  · intro h
    constructor <;> simp [adapter_execute, h]
  · intro h
    refine ⟨by simp [adapter_execute, h], ?_⟩
    simp [adapter_execute, h]
  · intro msg h
    constructor <;> simp [adapter_execute, h]

/-- Witness for C7 with concrete spawn layers producing each of the three
failure causes. -/
theorem adapter_execute_error_mapping_witness :
    ((adapter_execute copilotInfo (fun _ _ => SpawnOutcome.timeoutExpired)
        ["copilot"] { model := "m", timeout_minutes := 30 } false).exit_code = 124 ∧
      (adapter_execute copilotInfo (fun _ _ => SpawnOutcome.timeoutExpired)
        ["copilot"] { model := "m", timeout_minutes := 30 } false).stderr =
        "Execution timed out after " ++ toString (30 : Nat) ++ " minutes") ∧
    (adapter_execute copilotInfo (fun _ _ => SpawnOutcome.fileNotFound)
        ["copilot"] { model := "m", timeout_minutes := 30 } false).exit_code = 127 ∧
    (adapter_execute copilotInfo (fun _ _ => SpawnOutcome.otherError "boom")
        ["copilot"] { model := "m", timeout_minutes := 30 } false).exit_code = 1 :=
  ⟨(adapter_execute_error_mapping copilotInfo (fun _ _ => SpawnOutcome.timeoutExpired)
      ["copilot"] { model := "m", timeout_minutes := 30 }).1 rfl,
   ((adapter_execute_error_mapping copilotInfo (fun _ _ => SpawnOutcome.fileNotFound)
      ["copilot"] { model := "m", timeout_minutes := 30 }).2.1 rfl).1,
   ((adapter_execute_error_mapping copilotInfo (fun _ _ => SpawnOutcome.otherError "boom")
      ["copilot"] { model := "m", timeout_minutes := 30 }).2.2 "boom" rfl).1⟩

/-- C6: a task whose record is checked complete in the source document is
reported as success by execute_task with no command built, no process
executed and no status record written. -/
theorem execute_task_completed_noop (env : ExecEnv) (id : String) (t : Task)
    (hfind : env.tasks.find? (fun u => u.task_id == id) = some t)
    (hc : t.is_completed = true) :
    execute_task env id = (Except.ok true, noEffects) := by
  simp [execute_task, hfind, hc]

/-- Witness for C6 on an environment whose only task is already checked
complete and whose body oracle would fail if consulted. -/
theorem execute_task_completed_noop_witness :
    execute_task envDone "T009" = (Except.ok true, noEffects) :=
  execute_task_completed_noop envDone "T009" taskDone rfl rfl

/-- A successful find? splits its list at the first element satisfying the
predicate: everything before it fails the predicate. -/
theorem find?_split {p : String → Bool} :
    ∀ (l : List String) (x : String), l.find? p = some x →
      ∃ l1 l2, l = l1 ++ x :: l2 ∧ (∀ y ∈ l1, p y = false) ∧ p x = true := by
  intro l
  induction l with
  | nil => intro x h; simp at h
  | cons a t ih =>
      intro x h
      by_cases hpa : p a = true
      · rw [List.find?_cons_of_pos _ hpa] at h
        injection h with h
        subst h
        exact ⟨[], t, rfl, by simp, hpa⟩
      · rw [List.find?_cons_of_neg _ (by simpa using hpa)] at h
        obtain ⟨l1, l2, heq, hall, hx⟩ := ih x h
        refine ⟨a :: l1, l2, by rw [heq]; rfl, ?_, hx⟩
        intro y hy
        rcases List.mem_cons.mp hy with rfl | hy'
        · simpa using hpa
        · exact hall y hy'

/-- C4 amended: the state-tracker resume command returns the failed stage
whenever one is set; with no failure it prints the terminal COMPLETE signal
exactly when every pipeline stage is completed, and otherwise the earliest
pipeline stage not in completed_stages; the get_next_stage operation of
vibe_workflow instead ignores failed_stage entirely (its result is
invariant under changing that field). -/
theorem next_stage_resume_amended (st : StateDict) (ws : WorkflowState) :
    (∀ f, st.failed_stage = some f → cmd_resume st = f) ∧
    (st.failed_stage = none → cmd_resume st = "COMPLETE" →
       ∀ s ∈ WORKFLOW_STAGES, s ∈ st.completed_stages) ∧
    (st.failed_stage = none → cmd_resume st ≠ "COMPLETE" →
       ∃ l1 l2, WORKFLOW_STAGES = l1 ++ cmd_resume st :: l2 ∧
         (∀ y ∈ l1, y ∈ st.completed_stages) ∧
         cmd_resume st ∉ st.completed_stages) ∧
    (∀ f, WorkflowState.get_next_stage { ws with failed_stage := f } =
       WorkflowState.get_next_stage ws) := by
  refine ⟨?_, ?_, ?_, fun f => rfl⟩
  · intro f hf
    simp [cmd_resume, hf]
  · intro hn hC s hs
    cases hfind : get_next_stage st.completed_stages with
    | none =>
        have := List.find?_eq_none.mp hfind s hs
        simpa using this
    | some nxt =>
        have hmem := List.mem_of_find?_eq_some hfind
        have hx : cmd_resume st = nxt := by simp [cmd_resume, hn, hfind]
        rw [hx] at hC
        subst hC
        have : ("COMPLETE" : String) ∉ WORKFLOW_STAGES := by decide
        exact absurd hmem this
  · intro hn hC
    cases hfind : get_next_stage st.completed_stages with
    | none =>
        exact absurd (by simp [cmd_resume, hn, hfind]) hC
    | some nxt =>
        have hx : cmd_resume st = nxt := by simp [cmd_resume, hn, hfind]
        obtain ⟨l1, l2, heq, hall, hp⟩ := find?_split WORKFLOW_STAGES nxt hfind
        refine ⟨l1, l2, by rw [hx]; exact heq, ?_, ?_⟩
        · intro y hy
          have := hall y hy
          simpa using this
        · rw [hx]
          intro hmem
          rw [Bool.not_eq_eq_eq_not] at hp
          simp at hp
          exact hp hmem

/-- Witness for C4 amended on a state whose plan stage failed. -/
theorem next_stage_resume_amended_witness :
    cmd_resume stPlanFailed = "plan" :=
  (next_stage_resume_amended stPlanFailed wsPlanFailed).1 "plan" rfl

/-- C4 counterexample: on a persisted state with the plan stage recorded as
failed and only specify completed, the next-stage operation of
vibe_workflow returns clarify, the first incomplete stage, not the failed
plan stage — resume-from-failure does not take priority there. -/
theorem get_next_stage_ignores_failed :
    wsPlanFailed.failed_stage = some "plan" ∧
    WorkflowState.get_next_stage wsPlanFailed = some "clarify" ∧
    (some "clarify" : Option String) ≠ some "plan" := by
  refine ⟨rfl, by decide, by decide⟩

/-- In a task list with pairwise distinct ids, find? on a member's id
returns exactly that member. -/
theorem find?_task_of_nodup :
    ∀ (tasks : List Task) (t : Task),
      (tasks.map Task.task_id).Nodup → t ∈ tasks →
      tasks.find? (fun u => u.task_id == t.task_id) = some t := by
  intro tasks
  induction tasks with
  | nil => intro t _ ht; cases ht
  | cons a rest ih =>
      intro t hnd ht
      rw [List.map_cons, List.nodup_cons] at hnd
      rcases List.mem_cons.mp ht with rfl | hmem
      · exact List.find?_cons_of_pos _ (by simp)
      · have hne : a.task_id ≠ t.task_id := by
          intro he
          exact hnd.1 (he ▸ List.mem_map_of_mem Task.task_id hmem)
        rw [List.find?_cons_of_neg _ (by simp [hne])]
        exact ih t hnd.2 hmem

/-- Membership in the sequential slice of a phase gives membership in the
task list together with the flags the filters test. -/
theorem mem_sequential_tasks {env : ExecEnv} {phase : Nat} {t : Task}
    (h : t ∈ sequential_tasks env phase) :
    t ∈ env.tasks ∧ t.is_parallel = false ∧ t.is_completed = false := by
  rcases List.mem_filter.mp h with ⟨hpt, hcond⟩
  rcases List.mem_filter.mp hpt with ⟨htasks, _⟩
  simp only [Bool.and_eq_true, Bool.not_eq_true'] at hcond
  exact ⟨htasks, hcond.1, hcond.2⟩

/-- Membership in the parallel slice of a phase gives membership in the
task list together with the flags the filters test. -/
theorem mem_parallel_tasks {env : ExecEnv} {phase : Nat} {t : Task}
    (h : t ∈ parallel_tasks env phase) :
    t ∈ env.tasks ∧ t.is_parallel = true ∧ t.is_completed = false := by
  rcases List.mem_filter.mp h with ⟨hpt, hcond⟩
  rcases List.mem_filter.mp hpt with ⟨htasks, _⟩
  simp only [Bool.and_eq_true, Bool.not_eq_true'] at hcond
  exact ⟨htasks, hcond.1, hcond.2⟩

/-- Value of execute_task on an incomplete task of an id-unique task list
in a non-dry-run environment, for each of the three body outcomes. -/
theorem execute_task_eval (env : ExecEnv) (t : Task)
    (hnd : (env.tasks.map Task.task_id).Nodup) (hmem : t ∈ env.tasks)
    (hc : t.is_completed = false) (hdry : env.dryRun = false) :
    (env.runTask t.task_id = TaskOutcome.success →
      execute_task env t.task_id =
        (Except.ok true, ⟨[t.task_id], [t.task_id], [t.task_id]⟩)) ∧
    (env.runTask t.task_id = TaskOutcome.failure →
      execute_task env t.task_id =
        (Except.ok false, ⟨[t.task_id], [t.task_id], [t.task_id]⟩)) ∧
    (env.runTask t.task_id = TaskOutcome.raised →
      execute_task env t.task_id =
        (Except.error (), ⟨[t.task_id], [t.task_id], []⟩)) := by
  have hfind := find?_task_of_nodup env.tasks t hnd hmem
  refine ⟨?_, ?_, ?_⟩ <;> intro hr <;> simp [execute_task, hfind, hc, hdry, hr]

/-- The sequential loop over tasks that all return success accumulates one
body execution per task, in order, and reports success. -/
theorem runSequential_all_ok (env : ExecEnv) :
    ∀ (l : List Task) (acc : Effects),
      (∀ t ∈ l, execute_task env t.task_id =
        (Except.ok true, ⟨[t.task_id], [t.task_id], [t.task_id]⟩)) →
      runSequential env l acc =
        (Except.ok true,
         acc ++ (⟨l.map Task.task_id, l.map Task.task_id, l.map Task.task_id⟩ : Effects)) := by
  intro l
  induction l with
  | nil =>
      intro acc _
      cases acc with
      | mk b p w => simp [runSequential, eff_append_mk]
  | cons t rest ih =>
      intro acc h
      have ht := h t (List.mem_cons_self t rest)
      have step : runSequential env (t :: rest) acc =
          runSequential env rest (acc ++ (⟨[t.task_id], [t.task_id], [t.task_id]⟩ : Effects)) := by
        simp only [runSequential, ht]
      rw [step, ih _ (fun u hu => h u (List.mem_cons_of_mem t hu))]
      cases acc with
      | mk b p w => simp [eff_append_mk, List.map_cons]

/-- The sequential loop passes over a prefix of all-succeeding tasks,
carrying their accumulated effects into the rest of the loop. -/
theorem runSequential_prefix (env : ExecEnv) :
    ∀ (l1 l2 : List Task) (acc : Effects),
      (∀ t ∈ l1, execute_task env t.task_id =
        (Except.ok true, ⟨[t.task_id], [t.task_id], [t.task_id]⟩)) →
      runSequential env (l1 ++ l2) acc =
        runSequential env l2
          (acc ++ (⟨l1.map Task.task_id, l1.map Task.task_id, l1.map Task.task_id⟩ : Effects)) := by
  intro l1
  induction l1 with
  | nil =>
      intro l2 acc _
      cases acc with
      | mk b p w => simp [eff_append_mk]
  | cons t rest ih =>
      intro l2 acc h
      have ht := h t (List.mem_cons_self t rest)
      have step : runSequential env (t :: (rest ++ l2)) acc =
          runSequential env (rest ++ l2)
            (acc ++ (⟨[t.task_id], [t.task_id], [t.task_id]⟩ : Effects)) := by
        simp only [runSequential, ht]
      rw [List.cons_append, step, ih l2 _ (fun u hu => h u (List.mem_cons_of_mem t hu))]
      cases acc with
      | mk b p w => simp [eff_append_mk, List.map_cons]

/-- Flattening a map to singletons is the plain map. -/
theorem flatten_map_singleton {α β : Type} (f : α → β) :
    ∀ l : List α, (l.map (fun a => [f a])).flatten = l.map f := by
  intro l
  induction l with
  | nil => rfl
  | cons a t ih => simp [ih]

/-- Pointwise equal predicates give equal any. -/
theorem any_congr_mem {α : Type} {p q : α → Bool} :
    ∀ l : List α, (∀ a ∈ l, p a = q a) → l.any p = l.any q := by
  intro l
  induction l with
  | nil => intro _; rfl
  | cons a t ih =>
      intro h
      simp only [List.any_cons, h a (List.mem_cons_self a t),
                 ih (fun b hb => h b (List.mem_cons_of_mem a hb))]

/-- Procs component of an append of effect records. -/
theorem eff_procs_append (a b : Effects) : (a ++ b).procs = a.procs ++ b.procs := by
  cases a with
  | mk b1 p1 w1 =>
      cases b with
      | mk b2 p2 w2 => rfl

/-- Any over a map tests the composition. -/
theorem any_map_comp {α β : Type} (f : α → β) (p : β → Bool) :
    ∀ l : List α, (l.map f).any p = l.any (fun a => p (f a)) := by
  intro l
  induction l with
  | nil => rfl
  | cons a t ih => simp only [List.map_cons, List.any_cons, ih]

/-- Negated any over negated tests is all. -/
theorem not_any_not_eq_all {α : Type} (p : α → Bool) :
    ∀ l : List α, (!l.any fun a => !p a) = l.all p := by
  intro l
  induction l with
  | nil => rfl
  | cons a t ih => simp [List.any_cons, List.all_cons, ← ih]

/-- C1: when a sequential task of a phase fails after its predecessors all
succeeded, execute_phase returns failure having executed exactly the
incomplete non-parallel tasks up to and including the failing one, in
document order; neither the later sequential tasks nor any parallel task of
the phase is ever invoked. -/
theorem execute_phase_sequential_failfast (env : ExecEnv) (phase : Nat)
    (hnd : (env.tasks.map Task.task_id).Nodup)
    (hdry : env.dryRun = false)
    (pre post : List Task) (tf : Task)
    (hseq : sequential_tasks env phase = pre ++ tf :: post)
    (hpre : ∀ t ∈ pre, env.runTask t.task_id = TaskOutcome.success)
    (hfail : env.runTask tf.task_id = TaskOutcome.failure) :
    execute_phase env phase =
      (Except.ok false,
        ⟨(pre ++ [tf]).map Task.task_id, (pre ++ [tf]).map Task.task_id,
         (pre ++ [tf]).map Task.task_id⟩) ∧
    ∀ t : Task, (t ∈ post ∨ t ∈ parallel_tasks env phase) →
      t.task_id ∉ (pre ++ [tf]).map Task.task_id := by
  have hmem_seq : ∀ t : Task, t ∈ pre ++ tf :: post → t ∈ sequential_tasks env phase := by
    intro t ht; rw [hseq]; exact ht
  have htfseq : tf ∈ sequential_tasks env phase :=
    hmem_seq tf (List.mem_append_right pre (List.mem_cons_self tf post))
  obtain ⟨htfmem, htfpar, htfcomp⟩ := mem_sequential_tasks htfseq
  have hpreeval : ∀ t ∈ pre, execute_task env t.task_id =
      (Except.ok true, ⟨[t.task_id], [t.task_id], [t.task_id]⟩) := by
    intro t ht
    obtain ⟨tmem, _, tcomp⟩ :=
      mem_sequential_tasks (hmem_seq t (List.mem_append_left _ ht))
    exact (execute_task_eval env t hnd tmem tcomp hdry).1 (hpre t ht)
  have htfeval : execute_task env tf.task_id =
      (Except.ok false, ⟨[tf.task_id], [tf.task_id], [tf.task_id]⟩) :=
    (execute_task_eval env tf hnd htfmem htfcomp hdry).2.1 hfail
  have htfpt : tf ∈ phase_tasks env phase := (List.mem_filter.mp htfseq).1
  have hbe : (phase_tasks env phase).isEmpty = false := by
    rcases he : (phase_tasks env phase) with _ | _
    · rw [he] at htfpt; cases htfpt
    · rfl
  have hrun : runSequential env (sequential_tasks env phase) noEffects =
      (Except.ok false,
        ⟨(pre ++ [tf]).map Task.task_id, (pre ++ [tf]).map Task.task_id,
         (pre ++ [tf]).map Task.task_id⟩) := by
    rw [hseq, runSequential_prefix env pre (tf :: post) noEffects hpreeval]
    have step : runSequential env (tf :: post)
        (noEffects ++ (⟨pre.map Task.task_id, pre.map Task.task_id, pre.map Task.task_id⟩ : Effects)) =
        (Except.ok false,
          (noEffects ++ (⟨pre.map Task.task_id, pre.map Task.task_id, pre.map Task.task_id⟩ : Effects))
            ++ (⟨[tf.task_id], [tf.task_id], [tf.task_id]⟩ : Effects)) := by
      simp only [runSequential, htfeval]
    rw [step]
    simp [noEffects, eff_append_mk, List.map_append]
  have hphase : execute_phase env phase =
      (Except.ok false,
        ⟨(pre ++ [tf]).map Task.task_id, (pre ++ [tf]).map Task.task_id,
         (pre ++ [tf]).map Task.task_id⟩) := by
    simp only [execute_phase, hbe, hrun]
    rfl
  refine ⟨hphase, ?_⟩
  have hsub : List.Sublist (sequential_tasks env phase) env.tasks :=
    List.Sublist.trans (List.filter_sublist _) (List.filter_sublist _)
  have hndseq : ((pre ++ tf :: post).map Task.task_id).Nodup := by
    rw [← hseq]
    exact ((hsub.map Task.task_id).nodup hnd)
  intro t ht hmem'
  obtain ⟨u, humem, huid⟩ := List.mem_map.mp hmem'
  rcases ht with hpost | hpar
  · have hrearr : pre ++ tf :: post = (pre ++ [tf]) ++ post := by
      simp
    rw [hrearr, List.map_append] at hndseq
    have hdisj := List.disjoint_of_nodup_append hndseq
    exact hdisj hmem' (List.mem_map_of_mem Task.task_id hpost)
  · obtain ⟨tmem, htp, _⟩ := mem_parallel_tasks hpar
    have huseq : u ∈ sequential_tasks env phase := by
      apply hmem_seq
      rcases List.mem_append.mp humem with h1 | h1
      · exact List.mem_append_left _ h1
      · rcases List.mem_cons.mp h1 with rfl | h2
        · exact List.mem_append_right _ (List.mem_cons_self _ _)
        · cases h2
    obtain ⟨humem', hup, _⟩ := mem_sequential_tasks huseq
    have := List.inj_on_of_nodup_map hnd humem' tmem huid
    rw [this] at hup
    rw [hup] at htp
    cases htp

/-- Witness for C1: with three incomplete sequential tasks of which the
second fails and one parallel task, the phase fails after executing only
the first two bodies. -/
theorem execute_phase_sequential_failfast_witness :
    execute_phase envFail2 1 =
      (Except.ok false,
        ⟨["T001", "T002"], ["T001", "T002"], ["T001", "T002"]⟩) := by
  have h := execute_phase_sequential_failfast envFail2 1 (by decide) rfl
    [taskA] [taskC] taskB (by decide) (by decide) (by decide)
  exact h.1

/-- C2: when every incomplete sequential task of the phase succeeds, the
body of every incomplete parallel-marked task of the phase is executed
(after all sequential ones, each regardless of its siblings' outcomes), and
execute_phase returns success exactly when no parallel task returned
failure or raised. -/
theorem execute_phase_parallel_complete (env : ExecEnv) (phase : Nat)
    (hnd : (env.tasks.map Task.task_id).Nodup)
    (hdry : env.dryRun = false)
    (hseq : ∀ t ∈ sequential_tasks env phase,
      env.runTask t.task_id = TaskOutcome.success) :
    (execute_phase env phase).2.procs =
      (sequential_tasks env phase).map Task.task_id
        ++ (parallel_tasks env phase).map Task.task_id ∧
    (execute_phase env phase).1 =
      Except.ok ((parallel_tasks env phase).all
        (fun t => decide (env.runTask t.task_id = TaskOutcome.success))) := by
  by_cases hempty : (phase_tasks env phase).isEmpty = true
  · have h0 : phase_tasks env phase = [] := by
      cases he : phase_tasks env phase with
      | nil => rfl
      | cons a l => rw [he] at hempty; cases hempty
    have hs0 : sequential_tasks env phase = [] := by
      simp [sequential_tasks, h0]
    have hp0 : parallel_tasks env phase = [] := by
      simp [parallel_tasks, h0]
    simp [execute_phase, hempty, hs0, hp0, noEffects]
  · have hbe : (phase_tasks env phase).isEmpty = false := by
      revert hempty
      cases (phase_tasks env phase).isEmpty <;> simp
    have hseqeval : ∀ t ∈ sequential_tasks env phase,
        execute_task env t.task_id =
          (Except.ok true, ⟨[t.task_id], [t.task_id], [t.task_id]⟩) := by
      intro t ht
      obtain ⟨tmem, _, tcomp⟩ := mem_sequential_tasks ht
      exact (execute_task_eval env t hnd tmem tcomp hdry).1 (hseq t ht)
    have hrs := runSequential_all_ok env (sequential_tasks env phase) noEffects hseqeval
    have hpareval : ∀ t ∈ parallel_tasks env phase,
        (execute_task env t.task_id).2.procs = [t.task_id] ∧
        isFailure (execute_task env t.task_id).1 =
          !(decide (env.runTask t.task_id = TaskOutcome.success)) := by
      intro t ht
      obtain ⟨tmem, _, tcomp⟩ := mem_parallel_tasks ht
      have he := execute_task_eval env t hnd tmem tcomp hdry
      cases hr : env.runTask t.task_id with
      | success => rw [he.1 hr]; simp [isFailure, hr]
      | failure => rw [he.2.1 hr]; simp [isFailure, hr]
      | raised => rw [he.2.2 hr]; simp [isFailure, hr]
    by_cases hpe : (parallel_tasks env phase).isEmpty = true
    · have hp0 : parallel_tasks env phase = [] := by
        cases he : parallel_tasks env phase with
        | nil => rfl
        | cons a l => rw [he] at hpe; cases hpe
      have hphase : execute_phase env phase =
          (Except.ok true,
            noEffects ++ (⟨(sequential_tasks env phase).map Task.task_id,
              (sequential_tasks env phase).map Task.task_id,
              (sequential_tasks env phase).map Task.task_id⟩ : Effects)) := by
        simp only [execute_phase, hbe, hrs, hpe]
        rfl
      rw [hphase]
      constructor
      · simp [noEffects, eff_append_mk, hp0]
      · simp [hp0]
    · have hpbe : (parallel_tasks env phase).isEmpty = false := by
        revert hpe
        cases (parallel_tasks env phase).isEmpty <;> simp
      have hprocs : ((parallel_tasks env phase).map
          (fun t => execute_task env t.task_id)).map (fun r => r.2.procs) =
          (parallel_tasks env phase).map (fun t => [t.task_id]) := by
        rw [List.map_map]
        exact List.map_congr_left (fun t ht => (hpareval t ht).1)
      have hfailed : ((parallel_tasks env phase).map
          (fun t => execute_task env t.task_id)).any (fun r => isFailure r.1) =
          (parallel_tasks env phase).any
            (fun t => !(decide (env.runTask t.task_id = TaskOutcome.success))) := by
        rw [any_map_comp]
        exact any_congr_mem _ (fun t ht => (hpareval t ht).2)
      have hphase : execute_phase env phase =
          (Except.ok (!((parallel_tasks env phase).map
              (fun t => execute_task env t.task_id)).any (fun r => isFailure r.1)),
            (noEffects ++ (⟨(sequential_tasks env phase).map Task.task_id,
              (sequential_tasks env phase).map Task.task_id,
              (sequential_tasks env phase).map Task.task_id⟩ : Effects))
              ++ combineEffects (((parallel_tasks env phase).map
                  (fun t => execute_task env t.task_id)).map Prod.snd)) := by
        simp only [execute_phase, hbe, hrs, hpe]
        rfl
      rw [hphase]
      constructor
      · have hcomb : (combineEffects (((parallel_tasks env phase).map
            (fun t => execute_task env t.task_id)).map Prod.snd)).procs =
            (parallel_tasks env phase).map Task.task_id := by
          simp only [combineEffects, List.map_map]
          have hmc : List.map (Effects.procs ∘ Prod.snd ∘ fun t => execute_task env t.task_id)
              (parallel_tasks env phase) =
              List.map (fun t => [t.task_id]) (parallel_tasks env phase) :=
            List.map_congr_left (fun t ht => (hpareval t ht).1)
          rw [hmc, flatten_map_singleton]
        rw [eff_procs_append, eff_procs_append, hcomb]
        simp [noEffects]
      · rw [hfailed, not_any_not_eq_all]

/-- Witness for C2: a succeeding sequential task followed by two parallel
tasks of which one raises; both parallel bodies are executed and the phase
fails. -/
theorem execute_phase_parallel_complete_witness :
    (execute_phase envParRaise 1).2.procs = ["T001", "T004", "T005"] ∧
    (execute_phase envParRaise 1).1 = Except.ok false := by
  have h := execute_phase_parallel_complete envParRaise 1 (by decide) rfl (by decide)
  constructor
  · rw [h.1]; decide
  · rw [h.2]
    have hall : ((parallel_tasks envParRaise 1).all
        (fun t => decide (envParRaise.runTask t.task_id = TaskOutcome.success))) = false := by
      decide
    rw [hall]

end SpecKit
